import Mathlib

/-!
Shallow embedding of `src/nn_utils.py` (single-hidden-layer neural network
trained by SGD).  Vectors are `List ℝ`, matrices are `List (List ℝ)`;
`sys.exit` is modelled as `Except.error`; machine floats are modelled by real
numbers; the global random-number generator is modelled as an oracle
`Nat → Nat` consumed sequentially.
-/

namespace NN

abbrev Vec := List ℝ

abbrev Mat := List (List ℝ)

/-- Dot product of two vectors, as in `np.dot` on 1-D arrays. -/
noncomputable def dotL (a b : Vec) : ℝ := (List.zipWith (fun u v => u * v) a b).sum

/-- Elementwise sum of two vectors (`+` on numpy 1-D arrays). -/
noncomputable def addV (a b : Vec) : Vec := List.zipWith (fun u v => u + v) a b

/-- Elementwise difference of two vectors. -/
noncomputable def subV (a b : Vec) : Vec := List.zipWith (fun u v => u - v) a b

/-- Elementwise product of two vectors (`np.multiply`). -/
noncomputable def mulV (a b : Vec) : Vec := List.zipWith (fun u v => u * v) a b

/-- Scalar multiple of a vector. -/
noncomputable def smulV (c : ℝ) (a : Vec) : Vec := a.map (fun v => c * v)

/-- Matrix–vector product (`np.dot` of a 2-D and a 1-D array). -/
noncomputable def matVec (M : Mat) (v : Vec) : Vec := M.map (fun r => dotL r v)

/-- Elementwise sum of two matrices. -/
noncomputable def addM (A B : Mat) : Mat := List.zipWith addV A B

/-- Scalar multiple of a matrix. -/
noncomputable def smulM (c : ℝ) (A : Mat) : Mat := A.map (smulV c)

/-- Outer product of two vectors (`np.outer`). -/
noncomputable def outer (a b : Vec) : Mat := a.map (fun ai => b.map (fun bj => ai * bj))

/-- One-hot vector of length `n` with a `1` at position `y` (and `0` wherever
`y` is out of range). -/
noncomputable def oneHot : Nat → Nat → Vec
  | 0, _ => []
  | n + 1, 0 => (1 : ℝ) :: List.replicate n (0 : ℝ)
  | n + 1, y + 1 => (0 : ℝ) :: oneHot n y

/-- Activation function `sigma(z, func)` from `nn_utils.py` (lines 119–141):
`tanh` and `sigmoid` (the latter computed as `exp z / (1 + exp z)`) applied
elementwise; any other kind hits `sys.exit`, modelled as `Except.error`. -/
noncomputable def sigma (z : Vec) (func : String) : Except String Vec :=
  if func = "tanh" then
    Except.ok (z.map Real.tanh)
  else if func = "sigmoid" then
    Except.ok (z.map (fun v => Real.exp v / (1 + Real.exp v)))
  else
    Except.error "Unsupported function type!"

/-- Derivative of the activation, `d_sigma(z, func)` (lines 143–165). -/
noncomputable def d_sigma (z : Vec) (func : String) : Except String Vec :=
  if func = "tanh" then
    Except.ok (z.map (fun v => 1 - Real.tanh v ^ 2))
  else if func = "sigmoid" then
    Except.ok (z.map (fun v =>
      Real.exp v / (1 + Real.exp v) * (1 - Real.exp v / (1 + Real.exp v))))
  else
    Except.error "Unsupported function type!"

/-- Softmax `softmax_function(z)` (lines 167–182): `exp z / sum(exp z)` elementwise. -/
noncomputable def softmax_function (z : Vec) : Vec :=
  z.map (fun v => Real.exp v / (z.map Real.exp).sum)

/-- The parameter dictionary `model` (and, with the same shape, the gradient
dictionary `model_grads`): fields `W : H×D`, `C : K×H`, `b1 : H`, `b2 : K`. -/
structure Model where
  W : Mat
  C : Mat
  b1 : Vec
  b2 : Vec

/-- The hyperparameter bundle produced by `parse_params` (lines 53–91). -/
structure Hyper where
  lr : ℝ
  decay : ℝ
  interval : Nat
  n_epochs : Nat
  n_h : Nat
  sigma : String

/-- The `mnist` dictionary as consumed by the core (training/test features and
labels plus the stored sizes `n_train`, `n_test`). -/
structure DataSet where
  x_train : List Vec
  y_train : List Nat
  x_test : List Vec
  y_test : List Nat
  n_train : Nat
  n_test : Nat

/-- Initialization `init_model` (lines 93–117): scales externally supplied Gaussian draws
`gW, gC, gb1, gb2` by the inverse square root of the fan-in and returns the
model together with a deep copy serving as the gradient buffer. -/
noncomputable def init_model (n_input n_output : Nat) (params : Hyper)
    (gW gC : Mat) (gb1 gb2 : Vec) : Model × Model :=
  let model : Model :=
    { W := smulM (1 / Real.sqrt n_input) gW
      C := smulM (1 / Real.sqrt params.n_h) gC
      b1 := smulV (1 / Real.sqrt params.n_h) gb1
      b2 := smulV (1 / Real.sqrt n_output) gb2 }
  (model, model)

/-- Forward pass `forward(x, model, func)` (lines 184–210): `Z = W·x + b1`, `H = sigma(Z)`,
`U = C·H + b2`, `f = softmax(U)`. -/
noncomputable def forward (x : Vec) (model : Model) (func : String) :
    Except String (Vec × Vec × Vec) :=
  let Z := addV (matVec model.W x) model.b1
  (sigma Z func).bind (fun H =>
    let U := addV (matVec model.C H) model.b2
    let f := softmax_function U
    Except.ok (Z, H, f))

/-- Backward pass `backprop(x, y, f, Z, H, model, model_grads, func)` (lines 212–252):
`dU = -1.0*f` (a fresh array), `dU[y] += 1`, `db2 = dU`, `dC = outer(dU, H)`,
`delta = Cᵗ·dU`, `db1 = delta ⊙ d_sigma(Z)`, `dW = outer(db1, x)`; all four
entries of the gradient dictionary are overwritten. -/
noncomputable def backprop (x : Vec) (y : Nat) (f Z H : Vec) (model : Model)
    (model_grads : Model) (func : String) : Except String Model :=
  let dU0 := f.map (fun v => -1 * v)
  let dU := dU0.set y (dU0.getD y 0 + 1)
  let db2 := dU
  let dC := outer dU H
  let delta := matVec model.C.transpose dU
  (d_sigma Z func).bind (fun dZZ =>
    let db1 := mulV delta dZZ
    let dW := outer db1 x
    Except.ok { model_grads with W := dW, C := dC, b1 := db1, b2 := db2 })

/-- Index of the first maximal entry (`np.argmax`), auxiliary recursion. -/
noncomputable def argmaxAux : List ℝ → Nat → Nat → ℝ → Nat
  | [], _, bi, _ => bi
  | v :: rest, i, bi, bv =>
    if bv < v then argmaxAux rest (i + 1) i v else argmaxAux rest (i + 1) bi bv

/-- Index of the first maximal entry of a vector (`np.argmax`). -/
noncomputable def argmax : Vec → Nat
  | [] => 0
  | v :: rest => argmaxAux rest 1 0 v

/-- The four in-place parameter updates of `nn_train` (lines 329–332):
`param := param + LR * gradient`. -/
noncomputable def updateModel (LR : ℝ) (m g : Model) : Model :=
  { W := addM m.W (smulM LR g.W)
    C := addM m.C (smulM LR g.C)
    b1 := addV m.b1 (smulV LR g.b1)
    b2 := addV m.b2 (smulV LR g.b2) }

/-- One sample-step of the training loop (lines 310–332): draw the sample at
`idx`, run `forward`, count a correct arg-max prediction, run `backprop`, and
update all four parameter tensors by `param + LR * gradient`.  The state is
`(model, model_grads, total_correct)`. -/
noncomputable def sampleStep (func : String) (data : DataSet) (LR : ℝ)
    (st : Model × Model × Nat) (idx : Nat) : Except String (Model × Model × Nat) :=
  let y := data.y_train.getD idx 0
  let x := data.x_train.getD idx []
  (forward x st.1 func).bind (fun ZHf =>
    let c := if argmax ZHf.2.2 = y then st.2.2 + 1 else st.2.2
    (backprop x y ZHf.2.2 ZHf.1 ZHf.2.1 st.1 st.2.1 func).bind (fun g =>
      Except.ok (updateModel LR st.1 g, g, c)))

/-- The `n_train` random indices drawn during epoch `e`; `rand` is the oracle
standing for the stream of `randint(0, n_train-1)` results. -/
def drawnIndices (rand : Nat → Nat) (e n : Nat) : List Nat :=
  (List.range n).map (fun k => rand (e * n + k))

/-- The inner loop of one epoch (lines 310–332): `n_train` sample-steps, with
the per-epoch `total_correct` counter starting at 0 (it is only printed). -/
noncomputable def epochBody (func : String) (data : DataSet) (rand : Nat → Nat)
    (LR : ℝ) (e : Nat) (st : Model × Model) : Except String (Model × Model) :=
  Except.map (fun t => (t.1, t.2.1))
    ((drawnIndices rand e data.n_train).foldlM (sampleStep func data LR) (st.1, st.2, 0))

/-- The staircase learning-rate update at the head of epoch `e`
(lines 304–306): `if epochs > 0 and epochs % interval == 0: LR *= decay`. -/
noncomputable def stepLR (decay : ℝ) (interval : Nat) (LR : ℝ) (e : Nat) : ℝ :=
  if 0 < e ∧ e % interval = 0 then LR * decay else LR

/-- One epoch of `nn_train` (lines 302–335): update the learning rate, then
run the inner loop on the (learning-rate, state) accumulator. -/
noncomputable def epochStep (func : String) (data : DataSet) (rand : Nat → Nat)
    (decay : ℝ) (interval : Nat) (acc : ℝ × Except String (Model × Model))
    (e : Nat) : ℝ × Except String (Model × Model) :=
  let LR := stepLR decay interval acc.1 e
  (LR, acc.2.bind (epochBody func data rand LR e))

/-- Training loop `nn_train(model, model_grads, params, mnist)` (lines 279–337): fold the
epochs `0, …, n_epochs-1` and return the final model. -/
noncomputable def nn_train (model model_grads : Model) (params : Hyper)
    (data : DataSet) (rand : Nat → Nat) : Except String Model :=
  Except.map (fun st => st.1)
    (((List.range params.n_epochs).foldl
        (epochStep params.sigma data rand params.decay params.interval)
        (params.lr, Except.ok (model, model_grads))).2)

/-- A `(sample, true label, predicted label)` triple handed to `plot_predict`. -/
abbrev PlotRec := Vec × Nat × Nat

/-- One iteration of the evaluation loop of `nn_test` (lines 361–382); state is
`(total_correct, count_correct, count_wrong, correct plots, wrong plots)` with
the fixed bucket capacity `k = 5`. -/
noncomputable def testStep (func : String) (model : Model) (data : DataSet)
    (st : Nat × Nat × Nat × List PlotRec × List PlotRec) (n : Nat) :
    Except String (Nat × Nat × Nat × List PlotRec × List PlotRec) :=
  let y := data.y_test.getD n 0
  let x := data.x_test.getD n []
  (forward x model func).bind (fun ZHf =>
    match st with
    | (total, cc, cw, cb, wb) =>
      let pred := argmax ZHf.2.2
      if pred = y then
        if cc < 5 then Except.ok (total + 1, cc + 1, cw, cb ++ [(x, y, pred)], wb)
        else Except.ok (total + 1, cc, cw, cb, wb)
      else
        if cw < 5 then Except.ok (total, cc, cw + 1, cb, wb ++ [(x, y, pred)])
        else Except.ok (total, cc, cw, cb, wb))

/-- Evaluation loop `nn_test(model, params, mnist)` (lines 339–385): visit the test samples in
original order and accumulate accuracy and the two visualization buckets. -/
noncomputable def nn_test (model : Model) (params : Hyper) (data : DataSet) :
    Except String (Nat × Nat × Nat × List PlotRec × List PlotRec) :=
  (List.range data.n_test).foldlM (testStep params.sigma model data) (0, 0, 0, [], [])

/-- The accuracy printed by `nn_test` (lines 384–385): `total_correct / n_test`. -/
noncomputable def test_accuracy (total n_test : Nat) : ℝ := (total : ℝ) / (n_test : ℝ)

/-- The predicted label for test sample `n` (arg-max of the forward output). -/
noncomputable def testPred (func : String) (model : Model) (data : DataSet) (n : Nat) : Nat :=
  match forward (data.x_test.getD n []) model func with
  | Except.ok ZHf => argmax ZHf.2.2
  | Except.error _ => 0

/-- Whether test sample `n` is classified correctly. -/
noncomputable def testCorrect (func : String) (model : Model) (data : DataSet)
    (n : Nat) : Bool :=
  testPred func model data n == data.y_test.getD n 0

/- ### A small heap model for the frame-effect/side-effect claims.
Numpy 1-D buffers live in a heap (a list of vectors addressed by index);
`np.dot`, `np.outer`, `-1.0 * f`, `sigma`, `softmax` allocate fresh buffers,
while `dU[y] = dU[y] + 1.0` writes one element of an existing buffer. -/

abbrev Heap := List Vec

/-- Read the buffer at address `r`. -/
noncomputable def readH (h : Heap) (r : Nat) : Vec := h.getD r []

/-- Allocate a fresh buffer holding `v`; returns the new heap and the address. -/
noncomputable def allocH (h : Heap) (v : Vec) : Heap × Nat := (h ++ [v], h.length)

/-- Write element `i` of the buffer at address `r` in place. -/
noncomputable def writeElem (h : Heap) (r i : Nat) (val : ℝ) : Heap :=
  h.set r ((h.getD r []).set i val)

/-- Buffer-level `forward` with explicit buffers: `x` is read from the heap, and the four
arrays `Z`, `H`, `U`, `f` computed by lines 206–209 are freshly allocated;
no existing buffer is written.  Returns the heap and the addresses of
`Z`, `H`, `f`. -/
noncomputable def forwardHeap (h : Heap) (rx : Nat) (model : Model) (func : String) :
    Except String (Heap × Nat × Nat × Nat) :=
  let x := readH h rx
  let a1 := allocH h (addV (matVec model.W x) model.b1)
  (sigma (readH a1.1 a1.2) func).bind (fun Hv =>
    let a2 := allocH a1.1 Hv
    let a3 := allocH a2.1 (addV (matVec model.C (readH a2.1 a2.2)) model.b2)
    let a4 := allocH a3.1 (softmax_function (readH a3.1 a3.2))
    Except.ok (a4.1, a1.2, a2.2, a4.2))

/-- Buffer-level `backprop` with explicit buffers for the vectors it touches: line 240
(`dU = -1.0*f`) allocates a fresh buffer from the contents of `f`, line 241
(`dU[y] = dU[y] + 1.0`) writes one element of that fresh buffer, and every
other array built (`dC`, `delta`, `db1`, `dW`) is a fresh value; the matrices
`W`, `C` are only read and the gradient dictionary is returned by value. -/
noncomputable def backpropHeap (h : Heap) (rx rf rZ rH : Nat) (y : Nat)
    (model : Model) (func : String) : Except String (Heap × Model) :=
  let a1 := allocH h ((readH h rf).map (fun v => -1 * v))
  let h2 := writeElem a1.1 a1.2 y ((readH a1.1 a1.2).getD y 0 + 1)
  let dU := readH h2 a1.2
  let db2 := dU
  let dC := outer dU (readH h2 rH)
  let delta := matVec model.C.transpose dU
  (d_sigma (readH h2 rZ) func).bind (fun dZZ =>
    let db1 := mulV delta dZZ
    let dW := outer db1 (readH h2 rx)
    Except.ok (h2, { W := dW, C := dC, b1 := db1, b2 := db2 }))

end NN

namespace NN

/- ### Helper lemmas about the activation scalars -/

theorem sigma_tanh (z : Vec) : sigma z "tanh" = Except.ok (z.map Real.tanh) := by
  simp [sigma]

theorem sigma_sigmoid (z : Vec) :
    sigma z "sigmoid" = Except.ok (z.map (fun v => Real.exp v / (1 + Real.exp v))) := by
  simp [sigma]

theorem d_sigma_tanh (z : Vec) :
    d_sigma z "tanh" = Except.ok (z.map (fun v => 1 - Real.tanh v ^ 2)) := by
  simp [d_sigma]

theorem d_sigma_sigmoid (z : Vec) :
    d_sigma z "sigmoid" = Except.ok (z.map (fun v =>
      Real.exp v / (1 + Real.exp v) * (1 - Real.exp v / (1 + Real.exp v)))) := by
  simp [d_sigma]

theorem one_add_exp_pos (x : ℝ) : 0 < 1 + Real.exp x := by
  have := Real.exp_pos x
  linarith

theorem hasDerivAt_logistic (x : ℝ) :
    HasDerivAt (fun t => Real.exp t / (1 + Real.exp t))
      (Real.exp x / (1 + Real.exp x) * (1 - Real.exp x / (1 + Real.exp x))) x := by
  have hne : (1 + Real.exp x) ≠ 0 := ne_of_gt (one_add_exp_pos x)
  have hd : HasDerivAt (fun t => 1 + Real.exp t) (Real.exp x) x := by
    simpa using (hasDerivAt_const x (1 : ℝ)).add (Real.hasDerivAt_exp x)
  have h := (Real.hasDerivAt_exp x).div hd hne
  convert h using 1
  field_simp
  ring

theorem hasDerivAt_tanh_aux (x : ℝ) :
    HasDerivAt (fun t => Real.tanh t) (1 - Real.tanh x ^ 2) x := by
  have hc : Real.cosh x ≠ 0 := ne_of_gt (Real.cosh_pos x)
  have h : HasDerivAt (fun t => Real.sinh t / Real.cosh t)
      ((Real.cosh x * Real.cosh x - Real.sinh x * Real.sinh x) / Real.cosh x ^ 2) x :=
    (Real.hasDerivAt_sinh x).div (Real.hasDerivAt_cosh x) hc
  have heq : (fun t => Real.sinh t / Real.cosh t) = fun t => Real.tanh t := by
    funext t
    rw [Real.tanh_eq_sinh_div_cosh]
  rw [heq] at h
  convert h using 1
  have hid : Real.cosh x ^ 2 - Real.sinh x ^ 2 = 1 := Real.cosh_sq_sub_sinh_sq x
  rw [Real.tanh_eq_sinh_div_cosh]
  field_simp
  nlinarith [Real.cosh_pos x]

/-- C7: for each supported kind the activation and its reported derivative are
exactly the formulas of `sigma`/`d_sigma` applied elementwise, and in both
cases the reported derivative is the true derivative of the activation,
expressed through the activation's own output (`1 - tanh z ^ 2`, resp.
`a * (1 - a)` for the logistic `a = exp z / (1 + exp z)`). -/
theorem activation_derivative_exact (z : Vec) (x : ℝ) :
    sigma z "tanh" = Except.ok (z.map Real.tanh)
    ∧ d_sigma z "tanh" = Except.ok (z.map (fun v => 1 - Real.tanh v ^ 2))
    ∧ sigma z "sigmoid" = Except.ok (z.map (fun v => Real.exp v / (1 + Real.exp v)))
    ∧ d_sigma z "sigmoid" = Except.ok (z.map (fun v =>
        Real.exp v / (1 + Real.exp v) * (1 - Real.exp v / (1 + Real.exp v))))
    ∧ HasDerivAt (fun t => Real.tanh t) (1 - Real.tanh x ^ 2) x
    ∧ HasDerivAt (fun t => Real.exp t / (1 + Real.exp t))
        (Real.exp x / (1 + Real.exp x) * (1 - Real.exp x / (1 + Real.exp x))) x := by
  refine ⟨sigma_tanh z, d_sigma_tanh z, sigma_sigmoid z, d_sigma_sigmoid z, ?_, ?_⟩
  · exact hasDerivAt_tanh_aux x
  · exact hasDerivAt_logistic x

/- ### Softmax is a probability distribution (C6) -/

theorem sum_map_exp_div (l : List ℝ) (S : ℝ) :
    (l.map (fun v => Real.exp v / S)).sum = (l.map Real.exp).sum / S := by
  induction l with
  | nil => simp
  | cons a t ih => simp [List.map_cons, List.sum_cons, add_div, ih]

theorem exp_sum_pos (u : Vec) (hu : u ≠ []) : 0 < (u.map Real.exp).sum := by
  induction u with
  | nil => cases hu rfl
  | cons a t ih =>
    cases t with
    | nil => simpa using Real.exp_pos a
    | cons b t' =>
      have h1 : 0 < ((b :: t').map Real.exp).sum := ih (by simp)
      have h2 : 0 < Real.exp a := Real.exp_pos a
      simp only [List.map_cons, List.sum_cons] at h1 ⊢
      linarith

/-- C6: the softmax output is a probability distribution: for every nonempty
input vector, the entries of `softmax_function u` sum to `1` and each entry
lies in `[0, 1]` (exactly, in the real-number model of the floats). -/
theorem softmax_prob_dist (u : Vec) (hu : u ≠ []) :
    (softmax_function u).sum = 1
    ∧ ∀ p ∈ softmax_function u, 0 ≤ p ∧ p ≤ 1 := by
  have hS : 0 < (u.map Real.exp).sum := exp_sum_pos u hu
  constructor
  · have hsum : (softmax_function u).sum
        = (u.map Real.exp).sum / (u.map Real.exp).sum := by
      unfold softmax_function
      exact sum_map_exp_div u _
    rw [hsum]
    exact div_self (ne_of_gt hS)
  · intro p hp
    unfold softmax_function at hp
    rcases List.mem_map.mp hp with ⟨v, hv, hpv⟩
    subst hpv
    constructor
    · exact div_nonneg (le_of_lt (Real.exp_pos v)) (le_of_lt hS)
    · rw [div_le_one hS]
      apply List.single_le_sum
      · intro x hx
        rcases List.mem_map.mp hx with ⟨w, _, hw⟩
        subst hw
        exact le_of_lt (Real.exp_pos w)
      · exact List.mem_map.mpr ⟨v, hv, rfl⟩

/- ### Heap read lemmas -/

theorem readH_append_zero (h : Heap) (l : List Vec) :
    readH (h ++ l) h.length = l.getD 0 [] := by
  unfold readH
  rw [List.getD_append_right h l [] h.length (le_refl _)]
  simp

theorem readH_append_add (h : Heap) (l : List Vec) (k : Nat) :
    readH (h ++ l) (h.length + k) = l.getD k [] := by
  unfold readH
  rw [List.getD_append_right h l [] _ (Nat.le_add_right _ _)]
  simp

theorem readH_append_lt (h : Heap) (l : List Vec) (r : Nat) (hr : r < h.length) :
    readH (h ++ l) r = readH h r := by
  unfold readH
  exact List.getD_append h l [] r hr

/- ### Forward pass characterization (C2) -/

theorem except_bind_ok {ε α β : Type} (a : α) (f : α → Except ε β) :
    Except.bind (Except.ok a) f = f a := rfl

/-- C2: for both supported activation kinds, the forward pass returns exactly
`z = W·x + b1`, `h = activate(z)`, `p = softmax(C·h + b2)`; being a function of
its inputs it is deterministic, and in the buffer model (`forwardHeap`) it only
allocates the fresh arrays `Z`, `H`, `U`, `f`, leaving every pre-existing
buffer — in particular `x` and the parameter tensors — unchanged (the original
heap survives as the untouched prefix of the final heap). -/
theorem forward_spec (x : Vec) (m : Model) (h : Heap) (rx : Nat) :
    forward x m "tanh" = Except.ok
      (addV (matVec m.W x) m.b1,
       (addV (matVec m.W x) m.b1).map Real.tanh,
       softmax_function (addV (matVec m.C
         ((addV (matVec m.W x) m.b1).map Real.tanh)) m.b2))
    ∧ forward x m "sigmoid" = Except.ok
      (addV (matVec m.W x) m.b1,
       (addV (matVec m.W x) m.b1).map (fun v => Real.exp v / (1 + Real.exp v)),
       softmax_function (addV (matVec m.C
         ((addV (matVec m.W x) m.b1).map (fun v => Real.exp v / (1 + Real.exp v)))) m.b2))
    ∧ forwardHeap h rx m "tanh" = Except.ok
      (h ++ [addV (matVec m.W (readH h rx)) m.b1,
             (addV (matVec m.W (readH h rx)) m.b1).map Real.tanh,
             addV (matVec m.C ((addV (matVec m.W (readH h rx)) m.b1).map Real.tanh)) m.b2,
             softmax_function (addV (matVec m.C
               ((addV (matVec m.W (readH h rx)) m.b1).map Real.tanh)) m.b2)],
       h.length, h.length + 1, h.length + 3)
    ∧ forwardHeap h rx m "sigmoid" = Except.ok
      (h ++ [addV (matVec m.W (readH h rx)) m.b1,
             (addV (matVec m.W (readH h rx)) m.b1).map
               (fun v => Real.exp v / (1 + Real.exp v)),
             addV (matVec m.C ((addV (matVec m.W (readH h rx)) m.b1).map
               (fun v => Real.exp v / (1 + Real.exp v)))) m.b2,
             softmax_function (addV (matVec m.C
               ((addV (matVec m.W (readH h rx)) m.b1).map
                 (fun v => Real.exp v / (1 + Real.exp v)))) m.b2)],
       h.length, h.length + 1, h.length + 3)
    ∧ ∀ (l : List Vec), (h ++ l).take h.length = h := by
  refine ⟨?_, ?_, ?_, ?_, fun l => List.take_left h l⟩
  · rw [forward, sigma_tanh, except_bind_ok]
  · rw [forward, sigma_sigmoid, except_bind_ok]
  · rw [forwardHeap]
    simp only [allocH, readH_append_zero, readH_append_add, List.getD_cons_zero,
      List.length_append, List.length_cons, List.length_nil, List.append_assoc,
      List.cons_append, List.nil_append, List.getD_cons_succ]
    rw [sigma_tanh, except_bind_ok]
  · rw [forwardHeap]
    simp only [allocH, readH_append_zero, readH_append_add, List.getD_cons_zero,
      List.length_append, List.length_cons, List.length_nil, List.append_assoc,
      List.cons_append, List.nil_append, List.getD_cons_succ]
    rw [sigma_sigmoid, except_bind_ok]

/- ### Backward pass gradients (C1) -/

theorem zipWith_sub_replicate_zero (t : Vec) :
    List.zipWith (fun u v => u - v) (List.replicate t.length (0 : ℝ)) t
      = t.map (fun v => -1 * v) := by
  induction t with
  | nil => rfl
  | cons a t ih =>
    simp only [List.length_cons, List.replicate_succ, List.zipWith_cons_cons,
      List.map_cons, ih]
    norm_num

theorem neg_set_eq_onehot_sub (f : Vec) (y : Nat) (hy : y < f.length) :
    (f.map (fun v => -1 * v)).set y ((f.map (fun v => -1 * v)).getD y 0 + 1)
      = subV (oneHot f.length y) f := by
  induction f generalizing y with
  | nil => cases hy
  | cons a t ih =>
    cases y with
    | zero =>
      simp only [List.map_cons, List.set_cons_zero, List.getD_cons_zero,
        List.length_cons, oneHot, subV, List.zipWith_cons_cons]
      refine List.cons_eq_cons.mpr ⟨by ring, (zipWith_sub_replicate_zero t).symm⟩
    | succ y =>
      have hy' : y < t.length := Nat.lt_of_succ_lt_succ hy
      simp only [List.map_cons, List.set_cons_succ, List.getD_cons_succ,
        List.length_cons, oneHot, subV, List.zipWith_cons_cons]
      refine List.cons_eq_cons.mpr ⟨by ring, ih y hy'⟩

/-- C1: for any label `y < K` (with `K` the length of the distribution `f`),
the backward pass succeeds for both supported kinds and returns exactly the
bundle `db2 = one_hot(y) - f`, `dC = outer(db2, H)`,
`db1 = (Cᵗ·db2) ⊙ activate_derivative(Z)`, `dW = outer(db1, x)`; moreover the
returned bundle does not depend on the previous contents of the gradient
dictionary (no accumulation across calls). -/
theorem backprop_gradients (x : Vec) (y : Nat) (f Z H : Vec) (m mg : Model)
    (hy : y < f.length) :
    backprop x y f Z H m mg "tanh" = Except.ok
      { W := outer (mulV (matVec m.C.transpose (subV (oneHot f.length y) f))
                   (Z.map (fun v => 1 - Real.tanh v ^ 2))) x
        C := outer (subV (oneHot f.length y) f) H
        b1 := mulV (matVec m.C.transpose (subV (oneHot f.length y) f))
                   (Z.map (fun v => 1 - Real.tanh v ^ 2))
        b2 := subV (oneHot f.length y) f }
    ∧ backprop x y f Z H m mg "sigmoid" = Except.ok
      { W := outer (mulV (matVec m.C.transpose (subV (oneHot f.length y) f))
                   (Z.map (fun v => Real.exp v / (1 + Real.exp v)
                               * (1 - Real.exp v / (1 + Real.exp v))))) x
        C := outer (subV (oneHot f.length y) f) H
        b1 := mulV (matVec m.C.transpose (subV (oneHot f.length y) f))
                   (Z.map (fun v => Real.exp v / (1 + Real.exp v)
                               * (1 - Real.exp v / (1 + Real.exp v))))
        b2 := subV (oneHot f.length y) f }
    ∧ ∀ (g1 g2 : Model) (func : String),
        backprop x y f Z H m g1 func = backprop x y f Z H m g2 func := by
  refine ⟨?_, ?_, fun g1 g2 func => rfl⟩
  · rw [backprop, d_sigma_tanh, except_bind_ok, neg_set_eq_onehot_sub f y hy]
  · rw [backprop, d_sigma_sigmoid, except_bind_ok, neg_set_eq_onehot_sub f y hy]

/-- Witness for C1 at `x = []`, `y = 0`, `f = [1]`, `Z = H = []`, zero model. -/
theorem backprop_gradients_witness :
    0 < ([(1 : ℝ)] : Vec).length
    ∧ (backprop [] 0 [(1 : ℝ)] [] [] ⟨[], [], [], []⟩ ⟨[], [], [], []⟩ "tanh"
        = Except.ok
          { W := outer (mulV (matVec (Model.mk [] [] [] []).C.transpose
                         (subV (oneHot ([(1 : ℝ)] : Vec).length 0) [(1 : ℝ)]))
                       (([] : Vec).map (fun v => 1 - Real.tanh v ^ 2))) []
            C := outer (subV (oneHot ([(1 : ℝ)] : Vec).length 0) [(1 : ℝ)]) []
            b1 := mulV (matVec (Model.mk [] [] [] []).C.transpose
                         (subV (oneHot ([(1 : ℝ)] : Vec).length 0) [(1 : ℝ)]))
                       (([] : Vec).map (fun v => 1 - Real.tanh v ^ 2))
            b2 := subV (oneHot ([(1 : ℝ)] : Vec).length 0) [(1 : ℝ)] }) :=
  ⟨by simp, (backprop_gradients [] 0 [(1 : ℝ)] [] [] ⟨[], [], [], []⟩ ⟨[], [], [], []⟩
      (by simp)).1⟩

/- ### Learning-rate schedule (C3) -/

theorem foldl_epochStep_fst (func : String) (data : DataSet) (rand : Nat → Nat)
    (decay : ℝ) (interval : Nat) (l : List Nat) :
    ∀ acc : ℝ × Except String (Model × Model),
      (l.foldl (epochStep func data rand decay interval) acc).1
        = l.foldl (stepLR decay interval) acc.1 := by
  induction l with
  | nil => intro acc; rfl
  | cons e t ih =>
    intro acc
    rw [List.foldl_cons, List.foldl_cons, ih]
    rfl

theorem foldl_stepLR_range (lr decay : ℝ) (interval : Nat) (hI : 1 ≤ interval) :
    ∀ e : Nat,
      (List.range (e + 1)).foldl (stepLR decay interval) lr
        = lr * decay ^ (e / interval) := by
  intro e
  induction e with
  | zero => simp [List.range_succ, stepLR]
  | succ e ih =>
    rw [List.range_succ, List.foldl_append, ih]
    rw [List.foldl_cons, List.foldl_nil, Nat.succ_div]
    simp only [stepLR]
    by_cases hdvd : interval ∣ e + 1
    · have hmod : (e + 1) % interval = 0 := Nat.mod_eq_zero_of_dvd hdvd
      rw [if_pos ⟨Nat.succ_pos e, hmod⟩, if_pos hdvd, pow_succ]
      ring
    · have hmod : (e + 1) % interval ≠ 0 :=
        fun hc => hdvd (Nat.dvd_of_mod_eq_zero hc)
      rw [if_neg (fun hc => hmod hc.2), if_neg hdvd]
      simp

/-- C3: in the training loop, the learning rate in effect during epoch `e`
(the first component of the epoch-fold accumulator after epochs `0, …, e` have
been entered) equals `lr * decay ^ (e / interval)`: it is multiplied by the
decay factor exactly at each positive epoch index divisible by the interval,
compounding across boundaries. -/
theorem train_lr_schedule (func : String) (data : DataSet) (rand : Nat → Nat)
    (lr decay : ℝ) (interval : Nat) (hI : 1 ≤ interval)
    (st0 : Except String (Model × Model)) (e : Nat) :
    ((List.range (e + 1)).foldl (epochStep func data rand decay interval)
        (lr, st0)).1
      = lr * decay ^ (e / interval) := by
  rw [foldl_epochStep_fst func data rand decay interval (List.range (e + 1)) (lr, st0)]
  exact foldl_stepLR_range lr decay interval hI e

/-- Witness for C3: with interval 5, decay 1/10 and initial rate 1/10, the
rate in effect during epoch 15 is `(1/10) * (1/10)^3`. -/
theorem train_lr_schedule_witness :
    1 ≤ 5
    ∧ ((List.range (15 + 1)).foldl
          (epochStep "sigmoid" ⟨[], [], [], [], 0, 0⟩ (fun _ => 0) (1/10) 5)
          ((1 : ℝ)/10, Except.ok (⟨[], [], [], []⟩, ⟨[], [], [], []⟩))).1
        = (1 : ℝ)/10 * ((1 : ℝ)/10) ^ (15 / 5) :=
  ⟨by omega,
   train_lr_schedule "sigmoid" ⟨[], [], [], [], 0, 0⟩ (fun _ => 0) ((1 : ℝ)/10)
     ((1 : ℝ)/10) 5 (by omega) (Except.ok (⟨[], [], [], []⟩, ⟨[], [], [], []⟩)) 15⟩

/- ### Training-loop structure (C4) -/

/-- C4: each epoch performs exactly `n_train` sample-steps (the drawn index
list has length `n_train` and the epoch body folds the sample-step over it);
each sample-step runs `forward` then `backprop` and updates every parameter
tensor by `param + LR * gradient` using the freshly computed gradient bundle;
and `nn_train` is the fold of the epoch step over the configured epoch count,
returning the final model. -/
theorem train_loop_structure (func : String) (data : DataSet) (rand : Nat → Nat)
    (LR : ℝ) (m g : Model) (c idx e : Nat) (model model_grads : Model)
    (params : Hyper) :
    (drawnIndices rand e data.n_train).length = data.n_train
    ∧ epochBody func data rand LR e (m, g) = Except.map (fun t => (t.1, t.2.1))
        ((drawnIndices rand e data.n_train).foldlM (sampleStep func data LR) (m, g, 0))
    ∧ sampleStep func data LR (m, g, c) idx
        = (forward (data.x_train.getD idx []) m func).bind (fun ZHf =>
            (backprop (data.x_train.getD idx []) (data.y_train.getD idx 0)
                ZHf.2.2 ZHf.1 ZHf.2.1 m g func).bind (fun g2 =>
              Except.ok
                ({ W := addM m.W (smulM LR g2.W)
                   C := addM m.C (smulM LR g2.C)
                   b1 := addV m.b1 (smulV LR g2.b1)
                   b2 := addV m.b2 (smulV LR g2.b2) }, g2,
                 if argmax ZHf.2.2 = data.y_train.getD idx 0 then c + 1 else c)))
    ∧ nn_train model model_grads params data rand = Except.map (fun st => st.1)
        (((List.range params.n_epochs).foldl
            (epochStep params.sigma data rand params.decay params.interval)
            (params.lr, Except.ok (model, model_grads))).2) :=
  ⟨by simp [drawnIndices], rfl, rfl, rfl⟩

/- ### Activation-kind validation (C5) -/

/-- C5 counterexample: with the unsupported kind `"relu"`, model construction
(`init_model`) succeeds and produces exactly the same model as with a valid
kind (it performs no validation of the activation kind), while the fatal
diagnostic surfaces from `sigma` — and hence from inside the training loop on
its very first forward call — contradicting the claim that the configuration
error is detected at model-build time, before training starts. -/
theorem config_check_not_at_build :
    init_model 1 1 ⟨1/10, 1/10, 5, 1, 1, "relu"⟩ [[1]] [[1]] [1] [1]
      = init_model 1 1 ⟨1/10, 1/10, 5, 1, 1, "sigmoid"⟩ [[1]] [[1]] [1] [1]
    ∧ sigma [0] "relu" = Except.error "Unsupported function type!"
    ∧ nn_train ⟨[[0]], [[0]], [0], [0]⟩ ⟨[[0]], [[0]], [0], [0]⟩
        ⟨1/10, 1/10, 5, 1, 1, "relu"⟩ ⟨[[0]], [0], [], [], 1, 0⟩ (fun _ => 0)
      = Except.error "Unsupported function type!" := by
  refine ⟨rfl, by simp [sigma], ?_⟩
  simp [nn_train, epochStep, epochBody, sampleStep, forward, sigma, drawnIndices,
    stepLR, Except.bind, Except.map, List.range_succ]

/-- C5 (amended): for any activation kind other than `tanh` and `sigmoid`,
`sigma` and `d_sigma` fail with the fatal diagnostic
`Unsupported function type!`; the check happens per-call inside the activation
functions, so `forward` fails the same way, while `init_model` never inspects
the kind and builds the same model whatever the kind field holds. -/
theorem activation_error_per_call (z x : Vec) (m : Model) (func : String)
    (h1 : func ≠ "tanh") (h2 : func ≠ "sigmoid") :
    sigma z func = Except.error "Unsupported function type!"
    ∧ d_sigma z func = Except.error "Unsupported function type!"
    ∧ forward x m func = Except.error "Unsupported function type!"
    ∧ ∀ (n_input n_output : Nat) (p : Hyper) (s : String) (gW gC : Mat)
        (gb1 gb2 : Vec),
        init_model n_input n_output { p with sigma := s } gW gC gb1 gb2
          = init_model n_input n_output p gW gC gb1 gb2 := by
  have hs : ∀ w : Vec, sigma w func = Except.error "Unsupported function type!" := by
    intro w
    rw [sigma, if_neg h1, if_neg h2]
  refine ⟨hs z, by rw [d_sigma, if_neg h1, if_neg h2], ?_,
    fun _ _ _ _ _ _ _ _ => rfl⟩
  rw [forward, hs (addV (matVec m.W x) m.b1)]
  rfl

/-- Witness for the amended C5 at the concrete kind `"relu"`. -/
theorem activation_error_per_call_witness :
    ("relu" : String) ≠ "tanh"
    ∧ ("relu" : String) ≠ "sigmoid"
    ∧ (sigma [0] "relu" = Except.error "Unsupported function type!"
       ∧ d_sigma [0] "relu" = Except.error "Unsupported function type!"
       ∧ forward [] ⟨[], [], [], []⟩ "relu" = Except.error "Unsupported function type!"
       ∧ ∀ (n_input n_output : Nat) (p : Hyper) (s : String) (gW gC : Mat)
           (gb1 gb2 : Vec),
           init_model n_input n_output { p with sigma := s } gW gC gb1 gb2
             = init_model n_input n_output p gW gC gb1 gb2) :=
  ⟨by decide, by decide,
   activation_error_per_call [0] [] ⟨[], [], [], []⟩ "relu" (by decide) (by decide)⟩

/- ### Success of every pipeline stage under a supported kind (C10) -/

theorem sigma_isOk (z : Vec) (func : String)
    (hfunc : func = "tanh" ∨ func = "sigmoid") :
    ∃ v, sigma z func = Except.ok v := by
  rcases hfunc with hf | hf <;> subst hf
  · exact ⟨_, sigma_tanh z⟩
  · exact ⟨_, sigma_sigmoid z⟩

theorem d_sigma_isOk (z : Vec) (func : String)
    (hfunc : func = "tanh" ∨ func = "sigmoid") :
    ∃ v, d_sigma z func = Except.ok v := by
  rcases hfunc with hf | hf <;> subst hf
  · exact ⟨_, d_sigma_tanh z⟩
  · exact ⟨_, d_sigma_sigmoid z⟩

theorem forward_isOk (x : Vec) (m : Model) (func : String)
    (hfunc : func = "tanh" ∨ func = "sigmoid") :
    ∃ t, forward x m func = Except.ok t := by
  obtain ⟨v, hv⟩ := sigma_isOk (addV (matVec m.W x) m.b1) func hfunc
  cases hr : forward x m func with
  | ok t => exact ⟨t, rfl⟩
  | error s =>
    simp only [forward, hv, except_bind_ok] at hr
    exact Except.noConfusion hr

theorem backprop_isOk (x : Vec) (y : Nat) (f Z H : Vec) (m mg : Model)
    (func : String) (hfunc : func = "tanh" ∨ func = "sigmoid") :
    ∃ g, backprop x y f Z H m mg func = Except.ok g := by
  obtain ⟨v, hv⟩ := d_sigma_isOk Z func hfunc
  cases hr : backprop x y f Z H m mg func with
  | ok g => exact ⟨g, rfl⟩
  | error s =>
    simp only [backprop, hv, except_bind_ok] at hr
    exact Except.noConfusion hr

theorem sampleStep_isOk (func : String) (data : DataSet) (LR : ℝ)
    (hfunc : func = "tanh" ∨ func = "sigmoid") :
    ∀ (st : Model × Model × Nat) (idx : Nat),
      ∃ st', sampleStep func data LR st idx = Except.ok st' := by
  intro st idx
  obtain ⟨⟨Z1, H1, f1⟩, hfw⟩ := forward_isOk (data.x_train.getD idx []) st.1 func hfunc
  obtain ⟨g, hbp⟩ := backprop_isOk (data.x_train.getD idx [])
    (data.y_train.getD idx 0) f1 Z1 H1 st.1 st.2.1 func hfunc
  cases hr : sampleStep func data LR st idx with
  | ok st' => exact ⟨st', rfl⟩
  | error s =>
    simp only [sampleStep, hfw, hbp, except_bind_ok] at hr
    exact Except.noConfusion hr

theorem foldlM_ok {β α : Type} (f : β → α → Except String β)
    (hf : ∀ st a, ∃ st', f st a = Except.ok st') (l : List α) :
    ∀ st : β, ∃ st', l.foldlM f st = Except.ok st' := by
  induction l with
  | nil => intro st; exact ⟨st, rfl⟩
  | cons a t ih =>
    intro st
    obtain ⟨st1, h1⟩ := hf st a
    obtain ⟨st2, h2⟩ := ih st1
    refine ⟨st2, ?_⟩
    rw [List.foldlM_cons, h1]
    exact h2

theorem epochBody_isOk (func : String) (data : DataSet) (rand : Nat → Nat)
    (hfunc : func = "tanh" ∨ func = "sigmoid") (LR : ℝ) (e : Nat) :
    ∀ st : Model × Model, ∃ st', epochBody func data rand LR e st = Except.ok st' := by
  intro st
  obtain ⟨r, hr⟩ := foldlM_ok (sampleStep func data LR)
    (sampleStep_isOk func data LR hfunc) (drawnIndices rand e data.n_train)
    (st.1, st.2, 0)
  cases hb : epochBody func data rand LR e st with
  | ok st' => exact ⟨st', rfl⟩
  | error s =>
    simp only [epochBody, hr, Except.map] at hb
    exact Except.noConfusion hb

theorem foldl_epochStep_ok (func : String) (data : DataSet) (rand : Nat → Nat)
    (decay : ℝ) (interval : Nat)
    (hfunc : func = "tanh" ∨ func = "sigmoid") (l : List Nat) :
    ∀ (acc : ℝ × Except String (Model × Model)) (st : Model × Model),
      acc.2 = Except.ok st →
      ∃ st', (l.foldl (epochStep func data rand decay interval) acc).2
        = Except.ok st' := by
  induction l with
  | nil => intro acc st hacc; exact ⟨st, hacc⟩
  | cons e t ih =>
    intro acc st hacc
    obtain ⟨st1, h1⟩ :=
      epochBody_isOk func data rand hfunc (stepLR decay interval acc.1 e) e st
    rw [List.foldl_cons]
    apply ih (epochStep func data rand decay interval acc e) st1
    simp only [epochStep]
    rw [hacc, except_bind_ok]
    exact h1

theorem nn_train_isOk (model model_grads : Model) (params : Hyper)
    (data : DataSet) (rand : Nat → Nat)
    (hfunc : params.sigma = "tanh" ∨ params.sigma = "sigmoid") :
    ∃ mo, nn_train model model_grads params data rand = Except.ok mo := by
  obtain ⟨st, hst⟩ := foldl_epochStep_ok params.sigma data rand params.decay
    params.interval hfunc (List.range params.n_epochs)
    (params.lr, Except.ok (model, model_grads)) (model, model_grads) rfl
  cases hr : nn_train model model_grads params data rand with
  | ok mo => exact ⟨mo, rfl⟩
  | error s =>
    simp only [nn_train, hst, Except.map] at hr
    exact Except.noConfusion hr

theorem testStep_isOk (func : String) (model : Model) (data : DataSet)
    (hfunc : func = "tanh" ∨ func = "sigmoid") :
    ∀ (st : Nat × Nat × Nat × List PlotRec × List PlotRec) (n : Nat),
      ∃ st', testStep func model data st n = Except.ok st' := by
  intro st n
  obtain ⟨⟨Z1, H1, f1⟩, hfw⟩ := forward_isOk (data.x_test.getD n []) model func hfunc
  obtain ⟨t, cc, cw, cb, wb⟩ := st
  simp only [testStep]
  rw [hfw, except_bind_ok]
  split_ifs <;> exact ⟨_, rfl⟩

theorem nn_test_isOk (model : Model) (params : Hyper) (data : DataSet)
    (hfunc : params.sigma = "tanh" ∨ params.sigma = "sigmoid") :
    ∃ r, nn_test model params data = Except.ok r :=
  foldlM_ok (testStep params.sigma model data)
    (testStep_isOk params.sigma model data hfunc) (List.range data.n_test)
    (0, 0, 0, [], [])

/-- C10: under the precondition that the activation kind is `tanh` or
`sigmoid`, the fatal-exit branch of `sigma` and `d_sigma` is unreachable:
every call to `sigma`, `d_sigma`, `forward` and `backprop` returns a value,
and the whole training and evaluation pipeline (`nn_train`, `nn_test`)
completes without the process-terminating error. -/
theorem pipeline_never_exits (func : String)
    (hfunc : func = "tanh" ∨ func = "sigmoid")
    (z x f Z H : Vec) (y : Nat) (m mg model model_grads : Model)
    (lr decay : ℝ) (interval n_epochs n_h : Nat) (data : DataSet)
    (rand : Nat → Nat) :
    (∃ v, sigma z func = Except.ok v)
    ∧ (∃ v, d_sigma z func = Except.ok v)
    ∧ (∃ t, forward x m func = Except.ok t)
    ∧ (∃ g, backprop x y f Z H m mg func = Except.ok g)
    ∧ (∃ mo, nn_train model model_grads ⟨lr, decay, interval, n_epochs, n_h, func⟩
          data rand = Except.ok mo)
    ∧ (∃ r, nn_test m ⟨lr, decay, interval, n_epochs, n_h, func⟩ data
          = Except.ok r) :=
  ⟨sigma_isOk z func hfunc, d_sigma_isOk z func hfunc, forward_isOk x m func hfunc,
   backprop_isOk x y f Z H m mg func hfunc,
   nn_train_isOk model model_grads ⟨lr, decay, interval, n_epochs, n_h, func⟩
     data rand hfunc,
   nn_test_isOk m ⟨lr, decay, interval, n_epochs, n_h, func⟩ data hfunc⟩

/-- Witness for C10 at the kind `"tanh"` with a one-sample dataset. -/
theorem pipeline_never_exits_witness :
    (("tanh" : String) = "tanh" ∨ ("tanh" : String) = "sigmoid")
    ∧ ((∃ v, sigma [0] "tanh" = Except.ok v)
       ∧ (∃ v, d_sigma [0] "tanh" = Except.ok v)
       ∧ (∃ t, forward [0] ⟨[[0]], [[0]], [0], [0]⟩ "tanh" = Except.ok t)
       ∧ (∃ g, backprop [0] 0 [1] [0] [0] ⟨[[0]], [[0]], [0], [0]⟩
             ⟨[[0]], [[0]], [0], [0]⟩ "tanh" = Except.ok g)
       ∧ (∃ mo, nn_train ⟨[[0]], [[0]], [0], [0]⟩ ⟨[[0]], [[0]], [0], [0]⟩
             ⟨1/10, 1/10, 5, 1, 1, "tanh"⟩ ⟨[[0]], [0], [[0]], [0], 1, 1⟩
             (fun _ => 0) = Except.ok mo)
       ∧ (∃ r, nn_test ⟨[[0]], [[0]], [0], [0]⟩ ⟨1/10, 1/10, 5, 1, 1, "tanh"⟩
             ⟨[[0]], [0], [[0]], [0], 1, 1⟩ = Except.ok r)) :=
  ⟨Or.inl rfl,
   pipeline_never_exits "tanh" (Or.inl rfl) [0] [0] [1] [0] [0] 0
     ⟨[[0]], [[0]], [0], [0]⟩ ⟨[[0]], [[0]], [0], [0]⟩
     ⟨[[0]], [[0]], [0], [0]⟩ ⟨[[0]], [[0]], [0], [0]⟩
     (1/10) (1/10) 5 1 1 ⟨[[0]], [0], [[0]], [0], 1, 1⟩ (fun _ => 0)⟩

/- ### Backward-pass frame property (C9) -/

theorem getD_append_self (h : Heap) (v : Vec) :
    (h ++ [v]).getD h.length ([] : Vec) = v := by
  rw [List.getD_append_right h [v] [] h.length (le_refl _)]
  simp

theorem set_append_length (h : Heap) (a b : Vec) :
    (h ++ [a]).set h.length b = h ++ [b] := by
  induction h with
  | nil => rfl
  | cons c t ih => simp only [List.cons_append, List.length_cons,
      List.set_cons_succ, ih]

/-- C9: in the buffer model, `backprop` allocates exactly one fresh buffer
(the copy `dU = -1.0*f`, subsequently updated in place at position `y`) and
writes nothing else: after the call every pre-existing buffer — the feature
vector `x`, the forward outputs `f`, `Z`, `H`, and (being only read or passed
by value) the parameter tensors — holds its original contents, the original
heap survives as the untouched prefix, and the returned gradient bundle equals
the one computed by the functional `backprop` for any previous gradient
contents. -/
theorem backprop_frame (h : Heap) (rx rf rZ rH y : Nat) (m : Model)
    (func : String) (hfunc : func = "tanh" ∨ func = "sigmoid")
    (hrx : rx < h.length) (hrf : rf < h.length) (hrZ : rZ < h.length)
    (hrH : rH < h.length) :
    ∃ g : Model,
      backpropHeap h rx rf rZ rH y m func
        = Except.ok
          (h ++ [((readH h rf).map (fun v => -1 * v)).set y
                  (((readH h rf).map (fun v => -1 * v)).getD y 0 + 1)], g)
      ∧ (h ++ [((readH h rf).map (fun v => -1 * v)).set y
                (((readH h rf).map (fun v => -1 * v)).getD y 0 + 1)]).take h.length
          = h
      ∧ (∀ r, r < h.length →
          readH (h ++ [((readH h rf).map (fun v => -1 * v)).set y
                  (((readH h rf).map (fun v => -1 * v)).getD y 0 + 1)]) r
            = readH h r)
      ∧ ∀ mg : Model,
          backprop (readH h rx) y (readH h rf) (readH h rZ) (readH h rH) m mg func
            = Except.ok g := by
  obtain ⟨dZZ, hdZ⟩ := d_sigma_isOk (readH h rZ) func hfunc
  refine ⟨{ W := outer (mulV (matVec m.C.transpose
              (((readH h rf).map (fun v => -1 * v)).set y
                (((readH h rf).map (fun v => -1 * v)).getD y 0 + 1))) dZZ)
              (readH h rx)
            C := outer (((readH h rf).map (fun v => -1 * v)).set y
                (((readH h rf).map (fun v => -1 * v)).getD y 0 + 1)) (readH h rH)
            b1 := mulV (matVec m.C.transpose
              (((readH h rf).map (fun v => -1 * v)).set y
                (((readH h rf).map (fun v => -1 * v)).getD y 0 + 1))) dZZ
            b2 := ((readH h rf).map (fun v => -1 * v)).set y
                (((readH h rf).map (fun v => -1 * v)).getD y 0 + 1) },
    ?_, List.take_left h _, fun r hr => readH_append_lt h _ r hr, ?_⟩
  · have hwrite : writeElem (h ++ [(readH h rf).map (fun v => -1 * v)]) h.length y
        ((readH (h ++ [(readH h rf).map (fun v => -1 * v)]) h.length).getD y 0 + 1)
        = h ++ [((readH h rf).map (fun v => -1 * v)).set y
                  (((readH h rf).map (fun v => -1 * v)).getD y 0 + 1)] := by
      simp only [writeElem, readH, getD_append_self, set_append_length]
    have hback : readH (h ++ [((readH h rf).map (fun v => -1 * v)).set y
          (((readH h rf).map (fun v => -1 * v)).getD y 0 + 1)]) h.length
        = ((readH h rf).map (fun v => -1 * v)).set y
            (((readH h rf).map (fun v => -1 * v)).getD y 0 + 1) := by
      simp only [readH, getD_append_self]
    simp only [backpropHeap, allocH]
    rw [hwrite, hback, readH_append_lt h _ rZ hrZ, readH_append_lt h _ rH hrH,
      readH_append_lt h _ rx hrx, hdZ, except_bind_ok]
  · intro mg
    rw [backprop, hdZ, except_bind_ok]

/-- Witness for C9 on a concrete four-buffer heap. -/
theorem backprop_frame_witness :
    (("tanh" : String) = "tanh" ∨ ("tanh" : String) = "sigmoid")
    ∧ (0 : Nat) < ([[(1 : ℝ)], [(1 : ℝ), (0 : ℝ)], [(0 : ℝ)], [(0 : ℝ)]] : Heap).length
    ∧ (1 : Nat) < ([[(1 : ℝ)], [(1 : ℝ), (0 : ℝ)], [(0 : ℝ)], [(0 : ℝ)]] : Heap).length
    ∧ (2 : Nat) < ([[(1 : ℝ)], [(1 : ℝ), (0 : ℝ)], [(0 : ℝ)], [(0 : ℝ)]] : Heap).length
    ∧ (3 : Nat) < ([[(1 : ℝ)], [(1 : ℝ), (0 : ℝ)], [(0 : ℝ)], [(0 : ℝ)]] : Heap).length
    ∧ ∃ g : Model,
        backpropHeap [[(1 : ℝ)], [(1 : ℝ), (0 : ℝ)], [(0 : ℝ)], [(0 : ℝ)]] 0 1 2 3 0
            ⟨[[0]], [[0]], [0], [0]⟩ "tanh"
          = Except.ok
            (([[(1 : ℝ)], [(1 : ℝ), (0 : ℝ)], [(0 : ℝ)], [(0 : ℝ)]] : Heap)
              ++ [((readH [[(1 : ℝ)], [(1 : ℝ), (0 : ℝ)], [(0 : ℝ)], [(0 : ℝ)]] 1).map
                    (fun v => -1 * v)).set 0
                  (((readH [[(1 : ℝ)], [(1 : ℝ), (0 : ℝ)], [(0 : ℝ)], [(0 : ℝ)]] 1).map
                    (fun v => -1 * v)).getD 0 0 + 1)], g)
        ∧ (([[(1 : ℝ)], [(1 : ℝ), (0 : ℝ)], [(0 : ℝ)], [(0 : ℝ)]] : Heap)
              ++ [((readH [[(1 : ℝ)], [(1 : ℝ), (0 : ℝ)], [(0 : ℝ)], [(0 : ℝ)]] 1).map
                    (fun v => -1 * v)).set 0
                  (((readH [[(1 : ℝ)], [(1 : ℝ), (0 : ℝ)], [(0 : ℝ)], [(0 : ℝ)]] 1).map
                    (fun v => -1 * v)).getD 0 0 + 1)]).take
            ([[(1 : ℝ)], [(1 : ℝ), (0 : ℝ)], [(0 : ℝ)], [(0 : ℝ)]] : Heap).length
            = [[(1 : ℝ)], [(1 : ℝ), (0 : ℝ)], [(0 : ℝ)], [(0 : ℝ)]]
        ∧ (∀ r, r < ([[(1 : ℝ)], [(1 : ℝ), (0 : ℝ)], [(0 : ℝ)], [(0 : ℝ)]] : Heap).length →
            readH (([[(1 : ℝ)], [(1 : ℝ), (0 : ℝ)], [(0 : ℝ)], [(0 : ℝ)]] : Heap)
              ++ [((readH [[(1 : ℝ)], [(1 : ℝ), (0 : ℝ)], [(0 : ℝ)], [(0 : ℝ)]] 1).map
                    (fun v => -1 * v)).set 0
                  (((readH [[(1 : ℝ)], [(1 : ℝ), (0 : ℝ)], [(0 : ℝ)], [(0 : ℝ)]] 1).map
                    (fun v => -1 * v)).getD 0 0 + 1)]) r
              = readH [[(1 : ℝ)], [(1 : ℝ), (0 : ℝ)], [(0 : ℝ)], [(0 : ℝ)]] r)
        ∧ ∀ mg : Model,
            backprop (readH [[(1 : ℝ)], [(1 : ℝ), (0 : ℝ)], [(0 : ℝ)], [(0 : ℝ)]] 0) 0
                (readH [[(1 : ℝ)], [(1 : ℝ), (0 : ℝ)], [(0 : ℝ)], [(0 : ℝ)]] 1)
                (readH [[(1 : ℝ)], [(1 : ℝ), (0 : ℝ)], [(0 : ℝ)], [(0 : ℝ)]] 2)
                (readH [[(1 : ℝ)], [(1 : ℝ), (0 : ℝ)], [(0 : ℝ)], [(0 : ℝ)]] 3)
                ⟨[[0]], [[0]], [0], [0]⟩ mg "tanh"
              = Except.ok g :=
  ⟨Or.inl rfl, by simp, by simp, by simp, by simp,
   backprop_frame [[(1 : ℝ)], [(1 : ℝ), (0 : ℝ)], [(0 : ℝ)], [(0 : ℝ)]] 0 1 2 3 0
     ⟨[[0]], [[0]], [0], [0]⟩ "tanh" (Or.inl rfl)
     (by simp) (by simp) (by simp) (by simp)⟩

/- ### Evaluation loop characterization (C8) -/

theorem bind_ok_m {ε α β : Type} (a : α) (f : α → Except ε β) :
    (Except.ok a >>= f) = f a := rfl

theorem testFold_char (func : String) (model : Model) (data : DataSet)
    (hfunc : func = "tanh" ∨ func = "sigmoid") (l : List Nat) :
    ∀ (t cc cw : Nat) (cb wb : List PlotRec), cc ≤ 5 → cw ≤ 5 →
      l.foldlM (testStep func model data) (t, cc, cw, cb, wb)
        = Except.ok
          (t + (l.filter (fun n => testCorrect func model data n)).length,
           min 5 (cc + (l.filter (fun n => testCorrect func model data n)).length),
           min 5 (cw + (l.filter (fun n => ! testCorrect func model data n)).length),
           cb ++ ((l.filter (fun n => testCorrect func model data n)).take (5 - cc)).map
             (fun n => (data.x_test.getD n [], data.y_test.getD n 0,
               testPred func model data n)),
           wb ++ ((l.filter (fun n => ! testCorrect func model data n)).take (5 - cw)).map
             (fun n => (data.x_test.getD n [], data.y_test.getD n 0,
               testPred func model data n))) := by
  induction l with
  | nil =>
    intro t cc cw cb wb hcc hcw
    simp only [List.foldlM_nil, List.filter_nil, List.length_nil, Nat.add_zero,
      List.take_nil, List.map_nil, List.append_nil]
    rw [min_eq_right hcc, min_eq_right hcw]
    rfl
  | cons n rest ih =>
    intro t cc cw cb wb hcc hcw
    obtain ⟨⟨Z1, H1, f1⟩, hfw⟩ := forward_isOk (data.x_test.getD n []) model func hfunc
    have hpred : testPred func model data n = argmax f1 := by
      simp only [testPred, hfw]
    rw [List.foldlM_cons]
    by_cases hcor : argmax f1 = data.y_test.getD n 0
    · have hcort : testCorrect func model data n = true := by
        simp only [testCorrect, hpred, beq_iff_eq]
        exact hcor
      by_cases h5 : cc < 5
      · have hstep : testStep func model data (t, cc, cw, cb, wb) n
            = Except.ok (t + 1, cc + 1, cw,
                cb ++ [(data.x_test.getD n [], data.y_test.getD n 0, argmax f1)],
                wb) := by
          simp only [testStep, hfw, except_bind_ok]
          rw [if_pos hcor, if_pos h5]
        rw [hstep, bind_ok_m,
          ih (t + 1) (cc + 1) cw _ wb (by omega) hcw]
        simp only [List.filter_cons, hcort, Bool.not_true, if_true, if_false,
          Bool.false_eq_true, ite_false, ite_true, List.length_cons, hpred]
        refine congrArg Except.ok ?_
        have h5cc : 5 - cc = (5 - (cc + 1)) + 1 := by omega
        have ht : t + 1 + (rest.filter (fun n => testCorrect func model data n)).length
            = t + ((rest.filter (fun n => testCorrect func model data n)).length + 1) := by
          omega
        have hm : cc + 1 + (rest.filter (fun n => testCorrect func model data n)).length
            = cc + ((rest.filter (fun n => testCorrect func model data n)).length + 1) := by
          omega
        rw [ht, hm, h5cc, List.take_succ_cons, List.map_cons]
        simp [List.append_assoc, hpred]
      · have hcc5 : cc = 5 := by omega
        have hstep : testStep func model data (t, cc, cw, cb, wb) n
            = Except.ok (t + 1, cc, cw, cb, wb) := by
          simp only [testStep, hfw, except_bind_ok]
          rw [if_pos hcor, if_neg h5]
        rw [hstep, bind_ok_m, ih (t + 1) cc cw cb wb hcc hcw]
        simp only [List.filter_cons, hcort, Bool.not_true, if_true, if_false,
          Bool.false_eq_true, ite_false, ite_true, List.length_cons, hpred]
        refine congrArg Except.ok ?_
        subst hcc5
        have ht : t + 1 + (rest.filter (fun n => testCorrect func model data n)).length
            = t + ((rest.filter (fun n => testCorrect func model data n)).length + 1) := by
          omega
        have hm : min 5 (5 + (rest.filter (fun n => testCorrect func model data n)).length)
            = min 5 (5 + ((rest.filter (fun n => testCorrect func model data n)).length + 1)) := by
          rw [min_eq_left (by omega), min_eq_left (by omega)]
        rw [ht, hm]
        simp
    · have hcorf : testCorrect func model data n = false := by
        simp only [testCorrect, hpred, beq_eq_false_iff_ne, ne_eq]
        exact hcor
      by_cases h5 : cw < 5
      · have hstep : testStep func model data (t, cc, cw, cb, wb) n
            = Except.ok (t, cc, cw + 1, cb,
                wb ++ [(data.x_test.getD n [], data.y_test.getD n 0, argmax f1)]) := by
          simp only [testStep, hfw, except_bind_ok]
          rw [if_neg (by exact hcor), if_pos h5]
        rw [hstep, bind_ok_m, ih t cc (cw + 1) cb _ hcc (by omega)]
        simp only [List.filter_cons, hcorf, Bool.not_false, if_true, if_false,
          Bool.false_eq_true, ite_false, ite_true, List.length_cons, hpred]
        refine congrArg Except.ok ?_
        have h5cw : 5 - cw = (5 - (cw + 1)) + 1 := by omega
        have hm : cw + 1 + (rest.filter (fun n => ! testCorrect func model data n)).length
            = cw + ((rest.filter (fun n => ! testCorrect func model data n)).length + 1) := by
          omega
        rw [hm, h5cw, List.take_succ_cons, List.map_cons]
        simp [List.append_assoc, hpred]
      · have hcw5 : cw = 5 := by omega
        have hstep : testStep func model data (t, cc, cw, cb, wb) n
            = Except.ok (t, cc, cw, cb, wb) := by
          simp only [testStep, hfw, except_bind_ok]
          rw [if_neg (by exact hcor), if_neg h5]
        rw [hstep, bind_ok_m, ih t cc cw cb wb hcc hcw]
        simp only [List.filter_cons, hcorf, Bool.not_false, if_true, if_false,
          Bool.false_eq_true, ite_false, ite_true, List.length_cons, hpred]
        refine congrArg Except.ok ?_
        subst hcw5
        have hm : min 5 (5 + (rest.filter (fun n => ! testCorrect func model data n)).length)
            = min 5 (5 + ((rest.filter (fun n => ! testCorrect func model data n)).length + 1)) := by
          rw [min_eq_left (by omega), min_eq_left (by omega)]
        rw [hm]
        simp

/-- C8: the evaluation loop visits every test index `0, …, n_test-1` once in
order; it returns the number of arg-max-correct samples as `total_correct`
(whence the reported accuracy `total_correct / n_test`), and the two
visualization buckets hold exactly the first `min 5 _` correctly- and
incorrectly-classified samples, in encounter order, as
`(sample, true label, predicted label)` triples. -/
theorem test_loop_spec (params : Hyper) (model : Model) (data : DataSet)
    (hfunc : params.sigma = "tanh" ∨ params.sigma = "sigmoid") :
    nn_test model params data
      = Except.ok
        (((List.range data.n_test).filter
            (fun n => testCorrect params.sigma model data n)).length,
         min 5 (((List.range data.n_test).filter
            (fun n => testCorrect params.sigma model data n)).length),
         min 5 (((List.range data.n_test).filter
            (fun n => ! testCorrect params.sigma model data n)).length),
         (((List.range data.n_test).filter
            (fun n => testCorrect params.sigma model data n)).take 5).map
           (fun n => (data.x_test.getD n [], data.y_test.getD n 0,
             testPred params.sigma model data n)),
         (((List.range data.n_test).filter
            (fun n => ! testCorrect params.sigma model data n)).take 5).map
           (fun n => (data.x_test.getD n [], data.y_test.getD n 0,
             testPred params.sigma model data n)))
    ∧ test_accuracy (((List.range data.n_test).filter
          (fun n => testCorrect params.sigma model data n)).length) data.n_test
        = ((((List.range data.n_test).filter
            (fun n => testCorrect params.sigma model data n)).length : ℝ))
          / (data.n_test : ℝ) := by
  constructor
  · simp only [nn_test]
    rw [testFold_char params.sigma model data hfunc (List.range data.n_test)
      0 0 0 [] [] (by omega) (by omega)]
    simp
  · rfl

/-- Witness for C8 on an empty test set. -/
theorem test_loop_spec_witness :
    ((Hyper.mk (1/10) (1/10) 5 1 1 "tanh").sigma = "tanh"
      ∨ (Hyper.mk (1/10) (1/10) 5 1 1 "tanh").sigma = "sigmoid")
    ∧ nn_test ⟨[], [], [], []⟩ (Hyper.mk (1/10) (1/10) 5 1 1 "tanh")
        ⟨[], [], [], [], 0, 0⟩ = Except.ok (0, 0, 0, [], []) := by
  refine ⟨Or.inl rfl, ?_⟩
  have h := (test_loop_spec (Hyper.mk (1/10) (1/10) 5 1 1 "tanh") ⟨[], [], [], []⟩
    ⟨[], [], [], [], 0, 0⟩ (Or.inl rfl)).1
  simpa using h

/-- Witness for C6 at the concrete input `[0]`. -/
theorem softmax_prob_dist_witness :
    (([(0 : ℝ)] : Vec) ≠ [])
    ∧ ((softmax_function [(0 : ℝ)]).sum = 1
       ∧ ∀ p ∈ softmax_function [(0 : ℝ)], 0 ≤ p ∧ p ≤ 1) :=
  ⟨List.cons_ne_nil 0 [], softmax_prob_dist [(0 : ℝ)] (List.cons_ne_nil 0 [])⟩

end NN
